import Mathlib

/-!
Verification of the snips.sh upload client (src/index.ts).

The TypeScript source is shallowly embedded: strings are Lean `String`s
(lists of unicode scalars), the regular expressions of the source are
embedded as explicit backtracking matchers over `List Char`, the
event-driven connection promise is a step function on an explicit state,
and the external collaborators (SSH transport, RSA key generation) are
oracle parameters.
-/

set_option autoImplicit false

namespace Snips

/-! ### Character classes of the source regexes -/

/-- The escape introducers of `ANSI_CODE_PATTERN`: `[\u001b\u009b]`. -/
def ansiIntro (c : Char) : Bool :=
  c.toNat == 27 || c.toNat == 155

/-- The intermediate class of `ANSI_CODE_PATTERN`: `[[()#;?]`. -/
def ansiIntermediate (c : Char) : Bool :=
  let n := c.toNat
  n == 91 || n == 40 || n == 41 || n == 35 || n == 59 || n == 63

/-- The final-byte class of `ANSI_CODE_PATTERN`: `[0-9A-ORZcf-nqry=><]`. -/
def ansiFinal (c : Char) : Bool :=
  let n := c.toNat
  (decide (48 ≤ n) && decide (n ≤ 57)) ||
  (decide (65 ≤ n) && decide (n ≤ 79)) ||
  n == 82 || n == 90 || n == 99 ||
  (decide (102 ≤ n) && decide (n ≤ 110)) ||
  n == 113 || n == 114 || n == 121 ||
  n == 61 || n == 62 || n == 60

/-- The JavaScript `\s` (whitespace) character class, used by `[^\s]` in
the URL regex. -/
def jsSpace (c : Char) : Bool :=
  let n := c.toNat
  n == 9 || n == 10 || n == 11 || n == 12 || n == 13 || n == 32 ||
  n == 160 || n == 5760 ||
  (decide (8192 ≤ n) && decide (n ≤ 8202)) ||
  n == 8232 || n == 8233 || n == 8239 || n == 8287 || n == 12288 ||
  n == 65279

/-- The character class `[A-Za-z0-9_-]` of the id regex. -/
def isIdChar (c : Char) : Bool :=
  c.isAlphanum || c == '_' || c == '-'

/-- The JavaScript `.` (any character but a line terminator), used by
the ssh regex. -/
def notLineTerm (c : Char) : Bool :=
  let n := c.toNat
  !(n == 10 || n == 13 || n == 8232 || n == 8233)

/-! ### Backtracking matcher for `ANSI_CODE_PATTERN`

The pattern is
`[\u001b\u009b][[()#;?]*(?:[0-9]{1,4}(?:;[0-9]{0,4})*)?[0-9A-ORZcf-nqry=><]`
with JavaScript (greedy, backtracking) semantics.  Each matcher returns
the number of characters consumed, or `none`. -/

/-- Consume exactly `n` digits, returning the remainder. -/
def takeDigits : Nat → List Char → Option (List Char)
  | 0, l => some l
  | n + 1, c :: rest => if c.isDigit then takeDigits n rest else none
  | _ + 1, [] => none

/-- Try the digit counts in `ns` (in order, greedy-first), continuing
with `k`; models backtracking over a `[0-9]{lo,hi}` quantifier. -/
def tryDigitCounts : List Nat → List Char → (List Char → Option Nat) → Option Nat
  | [], _, _ => none
  | n :: ns, l, k =>
    match takeDigits n l with
    | some rest =>
      match k rest with
      | some m => some (n + m)
      | none => tryDigitCounts ns l k
    | none => tryDigitCounts ns l k

/-- Match the single final byte of the pattern. -/
def ansiFinalMatch : List Char → Option Nat
  | c :: _ => if ansiFinal c then some 1 else none
  | [] => none

/-- Greedy star over `(?:;[0-9]{0,4})`, with backtracking, continuing
with `k`; `fuel` bounds the number of iterations (each consumes at least
the semicolon). -/
def ansiParamsStar : Nat → List Char → (List Char → Option Nat) → Option Nat
  | 0, l, k => k l
  | fuel + 1, l, k =>
    match l with
    | ';' :: rest =>
      match tryDigitCounts [4, 3, 2, 1, 0] rest
          (fun r => ansiParamsStar fuel r k) with
      | some m => some (m + 1)
      | none => k l
    | _ => k l

/-- Match `(?:[0-9]{1,4}(?:;[0-9]{0,4})*)?` followed by the final byte,
greedy-first (group present before group absent). -/
def ansiNumFinal (l : List Char) : Option Nat :=
  match tryDigitCounts [4, 3, 2, 1] l
      (fun r => ansiParamsStar r.length r ansiFinalMatch) with
  | some m => some m
  | none => ansiFinalMatch l

/-- Match the whole pattern after the introducer.  The greedy star over
the intermediate class needs no backtracking: the intermediate class is
disjoint from the digits and from the final-byte class. -/
def ansiAfterIntro (l : List Char) : Option Nat :=
  let pre := l.takeWhile ansiIntermediate
  match ansiNumFinal (l.drop pre.length) with
  | some m => some (pre.length + m)
  | none => none

/-- Match `ANSI_CODE_PATTERN` at the head of `l`, returning the length
of the match. -/
def ansiMatchAt : List Char → Option Nat
  | [] => none
  | c :: rest =>
    if ansiIntro c then
      match ansiAfterIntro rest with
      | some m => some (m + 1)
      | none => none
    else none

/-- Global replace-with-empty of `ANSI_CODE_PATTERN`: scan left to
right, deleting each match and resuming after it, as JavaScript
`String.replace` with a `/g` regex does.  `fuel` makes the recursion
structural; every step consumes at least one character, so any fuel of
at least the list length is exact. -/
def stripScanF : Nat → List Char → List Char
  | _, [] => []
  | 0, l => l
  | fuel + 1, c :: rest =>
    match ansiMatchAt (c :: rest) with
    | some n => stripScanF fuel (rest.drop (n - 1))
    | none => c :: stripScanF fuel rest

/-- The scan with enough fuel for the whole input. -/
def stripScan (l : List Char) : List Char :=
  stripScanF l.length l

/-- `stripAnsi` from the source: removes every ANSI colour code. -/
def stripAnsi (s : String) : String :=
  ⟨stripScan s.data⟩

/-! ### The field extractors (`str.match(...)` with non-global regexes)

`scanFirst f l` models `str.match(re)`: try the matcher at index
0, 1, 2, ... and return the first success. -/

def scanFirst {α : Type} (f : List Char → Option α) : List Char → Option α
  | [] => none
  | c :: rest =>
    match f (c :: rest) with
    | some a => some a
    | none => scanFirst f rest

/-- Decimal value of a digit string, as `parseInt` computes it on an
all-digit input. -/
def digitsToNat (l : List Char) : Nat :=
  l.foldl (fun a c => a * 10 + (c.toNat - 48)) 0

/-- Match `/id: ([A-Za-z0-9_-]{10})/` at the head, returning group 1. -/
def idMatchAt : List Char → Option String
  | 'i' :: 'd' :: ':' :: ' ' :: rest =>
    if (rest.take 10).length == 10 && (rest.take 10).all isIdChar then
      some ⟨rest.take 10⟩
    else none
  | _ => none

/-- `extractId` from the source. -/
def extractId (s : String) : Option String :=
  scanFirst idMatchAt s.data

/-- Match `/size: ([0-9]+) ([A-Z]{1})/` at the head, returning the two
groups.  The greedy `[0-9]+` needs no backtracking: its continuation
starts with a space, which is not a digit. -/
def sizeMatchAt : List Char → Option (Nat × String)
  | 's' :: 'i' :: 'z' :: 'e' :: ':' :: ' ' :: rest =>
    let ds := rest.takeWhile Char.isDigit
    if ds.isEmpty then none
    else
      match rest.drop ds.length with
      | ' ' :: u :: _ =>
        if u.isUpper then some (digitsToNat ds, ⟨[u]⟩) else none
      | _ => none
  | _ => none

/-- The result shape of `extractSize`: `{ value, unit }`, each possibly
null. -/
structure SizeResult where
  value : Option Nat
  unit : Option String
deriving Repr, DecidableEq

/-- `extractSize` from the source: both fields are populated when the
regex matches, both are null when it does not. -/
def extractSize (s : String) : SizeResult :=
  match scanFirst sizeMatchAt s.data with
  | some (v, u) => ⟨some v, some u⟩
  | none => ⟨none, none⟩

/-- Match a literal label (given as a character list) followed by a
greedy `([a-z]+)` group, returning the group. -/
def lowerRunAfter (label : List Char) (l : List Char) : Option String :=
  if label.isPrefixOf l then
    let run := (l.drop label.length).takeWhile Char.isLower
    if run.isEmpty then none else some ⟨run⟩
  else none

/-- `extractType` from the source: `/type: ([a-z]+)/`. -/
def extractType (s : String) : Option String :=
  scanFirst (lowerRunAfter ['t', 'y', 'p', 'e', ':', ' ']) s.data

/-- `extractVisibility` from the source: `/visibility: ([a-z]+)/`. -/
def extractVisibility (s : String) : Option String :=
  scanFirst (lowerRunAfter
    ['v', 'i', 's', 'i', 'b', 'i', 'l', 'i', 't', 'y', ':', ' ']) s.data

/-- Match `/ssh (.+)/` at the head, returning the greedy group: the
rest of the line, which must be nonempty. -/
def sshMatchAt : List Char → Option String
  | 's' :: 's' :: 'h' :: ' ' :: rest =>
    let run := rest.takeWhile notLineTerm
    if run.isEmpty then none else some ⟨run⟩
  | _ => none

/-- `extractSsh` from the source. -/
def extractSsh (s : String) : Option String :=
  scanFirst sshMatchAt s.data

/-- Match `/https?:\/\/[^\s]+/` at the head, returning the whole match.
The optional `s` is tried greedily first; the two scheme shapes cannot
both match at one position, since `s` differs from `:`. -/
def urlMatchAt : List Char → Option String
  | 'h' :: 't' :: 't' :: 'p' :: 's' :: ':' :: '/' :: '/' :: rest =>
    if (rest.takeWhile (fun c => !jsSpace c)).isEmpty then none
    else some ⟨['h', 't', 't', 'p', 's', ':', '/', '/'] ++
      rest.takeWhile (fun c => !jsSpace c)⟩
  | 'h' :: 't' :: 't' :: 'p' :: ':' :: '/' :: '/' :: rest =>
    if (rest.takeWhile (fun c => !jsSpace c)).isEmpty then none
    else some ⟨['h', 't', 't', 'p', ':', '/', '/'] ++
      rest.takeWhile (fun c => !jsSpace c)⟩
  | _ => none

/-- `extractUrl` from the source. -/
def extractUrl (s : String) : Option String :=
  scanFirst urlMatchAt s.data

/-! ### Client options and key provisioning -/

/-- The slice of `ConnectConfig` the client touches: `privateKey` is
`none` for JavaScript `undefined`. -/
structure ClientOptions where
  host : String
  username : String
  privateKey : Option String
deriving Repr, DecidableEq

/-- JavaScript truthiness test of `clientOptions.privateKey`:
`undefined` and the empty string are falsy. -/
def privateKeyFalsy : Option String → Bool
  | none => true
  | some s => s == ""

/-- The request `setup` makes of the key-generation collaborator:
`generateKeyPair("rsa", { modulusLength: 4096 })` followed by
`export({ type: "pkcs1", format: "pem" })`. -/
structure KeyGenRequest where
  algorithm : String
  modulusLength : Nat
  exportType : String
  exportFormat : String
deriving Repr, DecidableEq

/-- The fixed request issued by `setup`. -/
def rsaRequest : KeyGenRequest :=
  ⟨"rsa", 4096, "pkcs1", "pem"⟩

/-- `Snips.setup` from the source, with key generation supplied as an
oracle `gen`: if the configured private key is falsy, generate one and
store it; in every case return the (updated) options. -/
def setup (gen : KeyGenRequest → String) (opts : ClientOptions) : ClientOptions :=
  if privateKeyFalsy opts.privateKey then
    { opts with privateKey := some (gen rsaRequest) }
  else opts

/-! ### The Snip result and the upload validation pipeline -/

/-- The size component of a `Snip`: `{ value: number; unit: string }`. -/
structure SnipSize where
  value : Nat
  unit : String
deriving Repr, DecidableEq

/-- The `Snip` class of the source (its data; the `sign` method is out
of scope of the claims). -/
structure Snip where
  id : String
  size : SnipSize
  type : String
  visibility : String
  ssh : String
  url : Option String
  clientOptions : ClientOptions
deriving Repr, DecidableEq

/-- An apostrophe, as a string. -/
def apos : String :=
  ⟨[Char.ofNat 39]⟩

/-- The invariant-violation message of `upload`:
`Visibility is (visibility) but (found / didn + apostrophe + t find) URL`,
assembled below without a literal apostrophe. -/
def mismatchMsg (vis : String) (found : Bool) : String :=
  "Visibility is " ++ vis ++ " but " ++
    (if found then "found" else "didn" ++ apos ++ "t find") ++ " URL"

/-- Modelled from the spec: the `invariant` helper imported from the
missing module `./invariant` — `invariant(cond, msg)` throws an error
carrying `msg` when `cond` is falsy and is a no-op otherwise, which is
how the validation steps of the spec "fail with an error identifying that
field".  In this embedding each `invariant` call site appears as the
corresponding `Except.error` branch of `parseSnip`. -/
def invariantHolds (cond : Bool) : Bool :=
  cond

/-- The response-processing tail of `Snips.upload`: sanitize, run the
extractions, and perform the `invariant` checks in source order,
producing either the first error message or the constructed `Snip`.
Truthiness notes from the source: `value && unit` is falsy when the
numeric value is `0` or either field is null; `id`, `type`, `ssh` and
`url` are nonempty strings whenever their regex matches, so their
truthiness coincides with non-nullness. -/
def parseSnip (response : String) (opts : ClientOptions) : Except String Snip :=
  let s := stripAnsi response
  match extractId s with
  | none => .error "Failed to extract ID from response"
  | some id =>
    match (extractSize s).value, (extractSize s).unit with
    | some value, some unit =>
      if value == 0 || unit == "" then
        .error "Failed to extract size from response"
      else
        match extractType s with
        | none => .error "Failed to extract type from response"
        | some type =>
          match extractVisibility s with
          | none => .error "Failed to extract visibility from response"
          | some vis =>
            if vis == "public" || vis == "private" then
              match extractSsh s with
              | none => .error "Failed to extract SSH host from response"
              | some ssh =>
                let url := extractUrl s
                if (url.isSome && vis == "public") ||
                    (url.isNone && vis == "private") then
                  .ok ⟨id, ⟨value, unit⟩, type, vis, ssh, url, opts⟩
                else .error (mismatchMsg vis url.isSome)
            else .error "Failed to extract visibility from response"
    | _, _ => .error "Failed to extract size from response"

/-- The command token list `upload` builds: an empty base, plus the
`-private` flag iff the option is set. -/
def uploadCommand (isPrivate : Bool) : List String :=
  if isPrivate then ["-private"] else []

/-- The base verb of the upload command line (empty: uploading is the
default action of the service). -/
def uploadBase : List String :=
  []

/-- The executed command line: the tokens joined by spaces
(`command.join(" ")` in `writeWithCommand`). -/
def uploadCommandLine (isPrivate : Bool) : String :=
  String.intercalate " " (uploadCommand isPrivate)

/-- `Snips.upload`, with the SSH exec channel supplied as an oracle
`exec commandLine input = capturedOutput`: ensure the identity, run the
command with `content` as the channel input, and parse the response. -/
def upload (gen : KeyGenRequest → String) (exec : String → String → String)
    (content : String) (isPrivate : Bool) (opts : ClientOptions) :
    Except String Snip :=
  let opts2 := setup gen opts
  parseSnip (exec (uploadCommandLine isPrivate) content) opts2

/-! ### The connection promise state machine (`connectClient`)

The four events the source listens for, and the promise they settle.
`resolve`/`reject` follow JavaScript promise semantics: only the first
settlement takes effect.  The ready handler removes the error listener
before resolving; no other listener is ever removed. -/

inductive ConnEvent where
  | ready
  | errorEvent (msg : String)
  | endEvent
  | closeEvent
deriving Repr, DecidableEq

inductive PromiseState where
  | pending
  | resolved
  | rejected (msg : String)
deriving Repr, DecidableEq

/-- Settle-once semantics of a JavaScript promise. -/
def settle (p : PromiseState) (outcome : PromiseState) : PromiseState :=
  match p with
  | .pending => outcome
  | _ => p

/-- The listener set and promise of one `connectClient` attempt. -/
structure ConnState where
  promise : PromiseState
  errorListener : Bool
  readyListener : Bool
  endListener : Bool
  closeListener : Bool
deriving Repr, DecidableEq

/-- The state after `connectClient` has registered its handlers. -/
def connStart : ConnState :=
  ⟨.pending, true, true, true, true⟩

/-- One event dispatch: a handler runs only while its listener is
attached; the ready handler removes the error listener and resolves;
the end and close handlers reject with their fixed messages. -/
def connStep (st : ConnState) (e : ConnEvent) : ConnState :=
  match e with
  | .ready =>
    if st.readyListener then
      { st with errorListener := false, promise := settle st.promise .resolved }
    else st
  | .errorEvent m =>
    if st.errorListener then
      { st with promise := settle st.promise (.rejected m) }
    else st
  | .endEvent =>
    if st.endListener then
      { st with promise := (settle st.promise (.rejected "Client ended unexpectedly")) }
    else st
  | .closeEvent =>
    if st.closeListener then
      { st with promise := (settle st.promise (.rejected "Client closed unexpectedly")) }
    else st

/-- Run an attempt over a sequence of events. -/
def connRun (es : List ConnEvent) : ConnState :=
  es.foldl connStep connStart

/-- The outcome the first event alone dictates. -/
def firstOutcome : List ConnEvent → PromiseState
  | [] => .pending
  | e :: _ =>
    match e with
    | .ready => .resolved
    | .errorEvent m => .rejected m
    | .endEvent => .rejected "Client ended unexpectedly"
    | .closeEvent => .rejected "Client closed unexpectedly"

/-! ### Specification-side predicates (for the refinement claims C4, C5)

These follow the words of the spec, to be compared with the extractors
embedded from the source. -/

/-- The id condition of the spec at one position of the transcript: the
literal `id:` label (with its separating space, as in the transcript grammar of
the spec `id: <token>`) followed by a run of exactly 10
characters from `[A-Za-z0-9_-]`. -/
def specIdAt (l : List Char) (t : String) : Prop :=
  t.data.length = 10 ∧ (∀ c ∈ t.data, isIdChar c = true) ∧
    ∃ rest, l = ['i', 'd', ':', ' '] ++ t.data ++ rest

/-- The url condition of the spec at one position: an `http(s)://` scheme
followed by a nonempty, maximal run of non-whitespace characters. -/
def specUrlAt (l : List Char) (u : String) : Prop :=
  ∃ scheme body rest,
    (scheme = ['h', 't', 't', 'p', ':', '/', '/'] ∨
      scheme = ['h', 't', 't', 'p', 's', ':', '/', '/']) ∧
    body ≠ [] ∧ (∀ c ∈ body, jsSpace c = false) ∧
    u.data = scheme ++ body ∧ l = scheme ++ body ++ rest ∧
    (rest = [] ∨ ∃ c rest2, rest = c :: rest2 ∧ jsSpace c = true)

/-- First-occurrence (left-to-right) id match of the spec. -/
def firstIdMatch (s : String) (t : String) : Prop :=
  ∃ i, i < s.data.length ∧ specIdAt (s.data.drop i) t ∧
    ∀ j < i, ∀ u, ¬ specIdAt (s.data.drop j) u

/-- First-occurrence (left-to-right) url match of the spec. -/
def firstUrlMatch (s : String) (u : String) : Prop :=
  ∃ i, i < s.data.length ∧ specUrlAt (s.data.drop i) u ∧
    ∀ j < i, ∀ v, ¬ specUrlAt (s.data.drop j) v

/-! ### Boolean abbreviations used in the claim statements -/

/-- The size invariant check of `upload` (`value && unit` truthy). -/
def sizeOk (s : String) : Bool :=
  ((extractSize s).value.getD 0 != 0) && ((extractSize s).unit.getD "" != "")

/-- The visibility invariant check of `upload`. -/
def visibilityOk (s : String) : Bool :=
  (extractVisibility s == some "public") ||
    (extractVisibility s == some "private")

/-- The four validation checks preceding the ssh check. -/
def priorFourOk (s : String) : Bool :=
  (extractId s).isSome && sizeOk s && (extractType s).isSome && visibilityOk s

/-- The non-visibility field checks preceding the url/visibility
cross-invariant. -/
def otherFieldsOk (s : String) : Bool :=
  (extractId s).isSome && sizeOk s && (extractType s).isSome &&
    (extractSsh s).isSome

end Snips

namespace Snips

/-! ### General lemmas about the matchers -/

theorem settle_of_ne_pending (p o : PromiseState) (h : p ≠ PromiseState.pending) :
    settle p o = p := by
  cases p with
  | pending => exact absurd rfl h
  | resolved => rfl
  | rejected m => rfl

theorem connStep_settled (st : ConnState) (e : ConnEvent)
    (h : st.promise ≠ PromiseState.pending) :
    (connStep st e).promise = st.promise := by
  cases e <;> simp only [connStep] <;> split <;>
    simp [settle_of_ne_pending st.promise _ h]

theorem connFold_settled (es : List ConnEvent) :
    ∀ st : ConnState, st.promise ≠ PromiseState.pending →
      (es.foldl connStep st).promise = st.promise := by
  induction es with
  | nil => intro st _; rfl
  | cons e rest ih =>
    intro st h
    have h1 : (connStep st e).promise = st.promise := connStep_settled st e h
    have h2 : (connStep st e).promise ≠ PromiseState.pending := by
      rw [h1]; exact h
    calc ((e :: rest).foldl connStep st).promise
        = (rest.foldl connStep (connStep st e)).promise := rfl
      _ = (connStep st e).promise := ih (connStep st e) h2
      _ = st.promise := h1

theorem connStep_endListener (st : ConnState) (e : ConnEvent) :
    (connStep st e).endListener = st.endListener := by
  cases e <;> simp only [connStep] <;> split <;> rfl

theorem connStep_closeListener (st : ConnState) (e : ConnEvent) :
    (connStep st e).closeListener = st.closeListener := by
  cases e <;> simp only [connStep] <;> split <;> rfl

theorem connFold_endListener (es : List ConnEvent) :
    ∀ st : ConnState, (es.foldl connStep st).endListener = st.endListener := by
  induction es with
  | nil => intro st; rfl
  | cons e rest ih =>
    intro st
    calc ((e :: rest).foldl connStep st).endListener
        = (rest.foldl connStep (connStep st e)).endListener := rfl
      _ = (connStep st e).endListener := ih (connStep st e)
      _ = st.endListener := connStep_endListener st e

theorem connFold_closeListener (es : List ConnEvent) :
    ∀ st : ConnState, (es.foldl connStep st).closeListener = st.closeListener := by
  induction es with
  | nil => intro st; rfl
  | cons e rest ih =>
    intro st
    calc ((e :: rest).foldl connStep st).closeListener
        = (rest.foldl connStep (connStep st e)).closeListener := rfl
      _ = (connStep st e).closeListener := ih (connStep st e)
      _ = st.closeListener := connStep_closeListener st e

theorem ansiMatchAt_none_of_not_intro (c : Char) (rest : List Char)
    (h : ansiIntro c = false) : ansiMatchAt (c :: rest) = none := by
  simp [ansiMatchAt, h]

theorem stripScanF_of_no_intro (fuel : Nat) :
    ∀ l : List Char, l.length ≤ fuel → (∀ c ∈ l, ansiIntro c = false) →
      stripScanF fuel l = l := by
  induction fuel with
  | zero =>
    intro l hl _
    cases l with
    | nil => rfl
    | cons c rest => simp at hl
  | succ fuel ih =>
    intro l hl h
    cases l with
    | nil => rfl
    | cons c rest =>
      rw [stripScanF, ansiMatchAt_none_of_not_intro c rest (h c (by simp))]
      have : stripScanF fuel rest = rest := by
        refine ih rest ?_ fun d hd => h d (by simp [hd])
        simpa using Nat.le_of_succ_le_succ hl
      rw [this]

theorem stripScan_of_no_intro (l : List Char)
    (h : ∀ c ∈ l, ansiIntro c = false) : stripScan l = l :=
  stripScanF_of_no_intro l.length l (Nat.le_refl _) h

end Snips

open Snips

/-! ### Claim C2 -/

/-- C2: counterexample.  The claim "stripAnsi is idempotent: for every
string x, stripAnsi(stripAnsi(x)) = stripAnsi(x)" is false on the code:
on the input `"\u001b\u001b[32m[31m"` the first pass removes only
`"\u001b[32m"`, leaving `"\u001b[31m"`, which a second pass removes
entirely. -/
theorem stripAnsi_idempotence_counterexample :
    stripAnsi (stripAnsi "\u001B\u001B[32m[31m") ≠
      stripAnsi "\u001B\u001B[32m[31m" := by
  decide

/-- C2 (amended): stripAnsi is idempotent on every input whose sanitized
form contains no escape-introducer character (U+001B or U+009B) — in
particular on every transcript it sanitizes fully — though not on all
strings, since deleting a match can splice the surrounding characters
into a new escape sequence. -/
theorem stripAnsi_idempotent_on_sanitized (x : String)
    (h : ∀ c ∈ (stripAnsi x).data, ansiIntro c = false) :
    stripAnsi (stripAnsi x) = stripAnsi x := by
  have : stripScan (stripScan x.data) = stripScan x.data :=
    stripScan_of_no_intro (stripScan x.data) h
  simpa [stripAnsi] using congrArg String.mk this

/-- Witness for the amended C2 at a concrete input. -/
theorem stripAnsi_idempotent_on_sanitized_witness :
    stripAnsi (stripAnsi "a\u001B[31mb") = stripAnsi "a\u001B[31mb" :=
  stripAnsi_idempotent_on_sanitized "a\u001B[31mb" (by decide)

/-! ### Claim C8 -/

/-- C8: counterexample.  The claim says that once a connect attempt is
settled "all other listeners are deactivated".  In the code the ready
handler removes only the error listener: after a "ready" event the
attempt is resolved yet the end and close listeners are still attached
(their later rejections are discarded by promise single-settlement, not
by deactivation). -/
theorem connect_listener_deactivation_counterexample :
    (connRun [ConnEvent.ready]).promise = PromiseState.resolved ∧
      (connRun [ConnEvent.ready]).endListener = true ∧
      (connRun [ConnEvent.ready]).closeListener = true := by
  decide

/-- C8 (amended): for every connect attempt, the first terminal event
settles it — "ready" resolves it, and the first occurrence of any of
error, premature-end or premature-close is the error outcome — and once
settled the outcome never changes, so no duplicate resolution or
rejection occurs; however only the error listener is deactivated (by
the ready handler): the end and close listeners stay attached, duplicate
settlement being prevented by promise single-settlement semantics. -/
theorem connect_first_event_settles (es : List ConnEvent) :
    (connRun es).promise = firstOutcome es ∧
      (connRun es).endListener = true ∧ (connRun es).closeListener = true := by
  refine ⟨?_, ?_, ?_⟩
  · cases es with
    | nil => rfl
    | cons e rest =>
      have h1 : (connStep connStart e).promise = firstOutcome (e :: rest) := by
        cases e <;> rfl
      have h2 : firstOutcome (e :: rest) ≠ PromiseState.pending := by
        cases e <;> simp [firstOutcome]
      calc (connRun (e :: rest)).promise
          = (rest.foldl connStep (connStep connStart e)).promise := rfl
        _ = (connStep connStart e).promise :=
            connFold_settled rest (connStep connStart e) (by rw [h1]; exact h2)
        _ = firstOutcome (e :: rest) := h1
  · exact connFold_endListener es connStart
  · exact connFold_closeListener es connStart

/-! ### Claim C6 -/

/-- C6: for every upload, the executed command line is the (empty) base
verb plus the `-private` flag token iff the private option is true, the
tokens joined by single spaces, and the content is delivered as the
input of the channel (the second argument of the exec collaborator). -/
theorem upload_command_construction (p : Bool) (gen : KeyGenRequest → String)
    (exec : String → String → String) (content : String)
    (opts : ClientOptions) :
    uploadCommand p = uploadBase ++ (if p then ["-private"] else []) ∧
      ("-private" ∈ uploadCommand p ↔ p = true) ∧
      uploadCommandLine p = (if p then "-private" else "") ∧
      upload gen exec content p opts =
        parseSnip (exec (uploadCommandLine p) content) (setup gen opts) := by
  refine ⟨?_, ?_, ?_, rfl⟩ <;>
    cases p <;> simp [uploadCommand, uploadBase, uploadCommandLine] <;> rfl

/-! ### Claim C7 -/

/-- C7: `setup` is idempotent per client instance: when the configured
private key is unset (JavaScript-falsy) it requests a 4096-bit RSA key
pair exported in PEM/PKCS1 textual form and returns the options with
that key populated; otherwise it returns the options unchanged; and once
a (nonempty) key has been generated, a subsequent call reuses it. -/
theorem setup_identity_provisioning (gen : KeyGenRequest → String)
    (opts : ClientOptions) :
    (privateKeyFalsy opts.privateKey = true →
      setup gen opts = { opts with privateKey := some (gen rsaRequest) }) ∧
    (privateKeyFalsy opts.privateKey = false → setup gen opts = opts) ∧
    (gen rsaRequest ≠ "" → setup gen (setup gen opts) = setup gen opts) := by
  refine ⟨fun h => by simp [setup, h], fun h => by simp [setup, h], fun h => ?_⟩
  by_cases hf : privateKeyFalsy opts.privateKey = true
  · have h1 : setup gen opts = { opts with privateKey := some (gen rsaRequest) } := by
      simp [setup, hf]
    rw [h1]
    have h2 : privateKeyFalsy (some (gen rsaRequest)) = false := by
      simp [privateKeyFalsy, h]
    simp [setup, h2]
  · have h1 : setup gen opts = opts := by simp [setup, hf]
    rw [h1]
    exact h1

/-- Witness for C7 at a concrete generator and configuration. -/
theorem setup_identity_provisioning_witness :
    setup (fun _ => "PEMKEY") ⟨"snips.sh", "ubuntu", none⟩ =
        ⟨"snips.sh", "ubuntu", some "PEMKEY"⟩ ∧
      setup (fun _ => "PEMKEY")
          (setup (fun _ => "PEMKEY") ⟨"snips.sh", "ubuntu", none⟩) =
        setup (fun _ => "PEMKEY") ⟨"snips.sh", "ubuntu", none⟩ :=
  ⟨(setup_identity_provisioning (fun _ => "PEMKEY")
      ⟨"snips.sh", "ubuntu", none⟩).1 (by decide),
    (setup_identity_provisioning (fun _ => "PEMKEY")
      ⟨"snips.sh", "ubuntu", none⟩).2.2 (by decide)⟩

namespace Snips

/-! ### Lemmas about the upload validation pipeline -/

theorem extractSize_value_unit_isSome (s : String) :
    (extractSize s).value.isSome = (extractSize s).unit.isSome := by
  unfold extractSize
  cases scanFirst sizeMatchAt s.data with
  | none => rfl
  | some p => cases p; rfl

theorem sizeOk_iff (s : String) :
    sizeOk s = true ↔ ∃ v u, (extractSize s).value = some v ∧
      (extractSize s).unit = some u ∧ (v == 0 || u == "") = false := by
  unfold sizeOk
  rcases hv : (extractSize s).value with _ | v <;>
    rcases hu : (extractSize s).unit with _ | u <;> simp

theorem parseSnip_err_at_id (r : String) (o : ClientOptions)
    (h : extractId (stripAnsi r) = none) :
    parseSnip r o = Except.error "Failed to extract ID from response" := by
  simp [parseSnip, h]

theorem parseSnip_err_at_size (r : String) (o : ClientOptions) (id : String)
    (hid : extractId (stripAnsi r) = some id)
    (h2 : sizeOk (stripAnsi r) = false) :
    parseSnip r o = Except.error "Failed to extract size from response" := by
  rcases hv : (extractSize (stripAnsi r)).value with _ | v
  · simp [parseSnip, hid, hv]
  · rcases hu : (extractSize (stripAnsi r)).unit with _ | u
    · simp [parseSnip, hid, hv, hu]
    · have hz : (v == 0 || u == "") = true := by
        simp only [sizeOk, hv, hu, Option.getD_some] at h2
        rcases Bool.and_eq_false_iff.mp h2 with h3 | h3 <;>
          simp only [bne_eq_false_iff_eq, beq_iff_eq] at h3 <;>
            simp [h3]
      simp [parseSnip, hid, hv, hu, hz]

theorem parseSnip_err_at_type (r : String) (o : ClientOptions) (id : String)
    (hid : extractId (stripAnsi r) = some id)
    (hsz : sizeOk (stripAnsi r) = true)
    (hty : extractType (stripAnsi r) = none) :
    parseSnip r o = Except.error "Failed to extract type from response" := by
  obtain ⟨v, u, hv, hu, hz⟩ := (sizeOk_iff (stripAnsi r)).mp hsz
  simp [parseSnip, hid, hv, hu, hz, hty]

theorem parseSnip_err_at_visibility (r : String) (o : ClientOptions)
    (id ty : String)
    (hid : extractId (stripAnsi r) = some id)
    (hsz : sizeOk (stripAnsi r) = true)
    (hty : extractType (stripAnsi r) = some ty)
    (hvis : visibilityOk (stripAnsi r) = false) :
    parseSnip r o = Except.error "Failed to extract visibility from response" := by
  obtain ⟨v, u, hv, hu, hz⟩ := (sizeOk_iff (stripAnsi r)).mp hsz
  rcases hvi : extractVisibility (stripAnsi r) with _ | vis
  · simp [parseSnip, hid, hv, hu, hz, hty, hvi]
  · have hvb : (vis == "public" || vis == "private") = false := by
      simpa [visibilityOk, hvi] using hvis
    simp [parseSnip, hid, hv, hu, hz, hty, hvi, hvb]

theorem parseSnip_err_at_ssh (r : String) (o : ClientOptions)
    (id ty vis : String)
    (hid : extractId (stripAnsi r) = some id)
    (hsz : sizeOk (stripAnsi r) = true)
    (hty : extractType (stripAnsi r) = some ty)
    (hvi : extractVisibility (stripAnsi r) = some vis)
    (hvb : (vis == "public" || vis == "private") = true)
    (hssh : extractSsh (stripAnsi r) = none) :
    parseSnip r o = Except.error "Failed to extract SSH host from response" := by
  obtain ⟨v, u, hv, hu, hz⟩ := (sizeOk_iff (stripAnsi r)).mp hsz
  simp [parseSnip, hid, hv, hu, hz, hty, hvi, hvb, hssh]

theorem parseSnip_err_mismatch (r : String) (o : ClientOptions)
    (id ty vis ssh : String)
    (hid : extractId (stripAnsi r) = some id)
    (hsz : sizeOk (stripAnsi r) = true)
    (hty : extractType (stripAnsi r) = some ty)
    (hvi : extractVisibility (stripAnsi r) = some vis)
    (hvb : (vis == "public" || vis == "private") = true)
    (hssh : extractSsh (stripAnsi r) = some ssh)
    (hbad : (((extractUrl (stripAnsi r)).isSome && vis == "public") ||
      ((extractUrl (stripAnsi r)).isNone && vis == "private")) = false) :
    parseSnip r o =
      Except.error (mismatchMsg vis (extractUrl (stripAnsi r)).isSome) := by
  obtain ⟨v, u, hv, hu, hz⟩ := (sizeOk_iff (stripAnsi r)).mp hsz
  simp [parseSnip, hid, hv, hu, hz, hty, hvi, hvb, hssh, hbad]

theorem parseSnip_ok_inversion (r : String) (o : ClientOptions) (sn : Snip)
    (h : parseSnip r o = Except.ok sn) :
    extractId (stripAnsi r) = some sn.id ∧
    extractType (stripAnsi r) = some sn.type ∧
    extractVisibility (stripAnsi r) = some sn.visibility ∧
    (sn.visibility = "public" ∨ sn.visibility = "private") ∧
    extractSsh (stripAnsi r) = some sn.ssh ∧
    extractUrl (stripAnsi r) = sn.url ∧
    (sn.url.isSome = true ↔ sn.visibility = "public") := by
  rcases hid : extractId (stripAnsi r) with _ | id
  · simp [parseSnip, hid] at h
  rcases hv : (extractSize (stripAnsi r)).value with _ | v
  · simp [parseSnip, hid, hv] at h
  rcases hu : (extractSize (stripAnsi r)).unit with _ | u
  · simp [parseSnip, hid, hv, hu] at h
  cases hz : (v == 0 || u == "")
  case true => simp [parseSnip, hid, hv, hu, hz] at h
  rcases hty : extractType (stripAnsi r) with _ | ty
  · simp [parseSnip, hid, hv, hu, hz, hty] at h
  rcases hvi : extractVisibility (stripAnsi r) with _ | vis
  · simp [parseSnip, hid, hv, hu, hz, hty, hvi] at h
  cases hvb : (vis == "public" || vis == "private")
  case false => simp [parseSnip, hid, hv, hu, hz, hty, hvi, hvb] at h
  rcases hssh : extractSsh (stripAnsi r) with _ | ssh
  · simp [parseSnip, hid, hv, hu, hz, hty, hvi, hvb, hssh] at h
  cases hinv : (((extractUrl (stripAnsi r)).isSome && vis == "public") ||
      ((extractUrl (stripAnsi r)).isNone && vis == "private"))
  case false => simp [parseSnip, hid, hv, hu, hz, hty, hvi, hvb, hssh, hinv] at h
  have hps : parseSnip r o =
      Except.ok ⟨id, ⟨v, u⟩, ty, vis, ssh, extractUrl (stripAnsi r), o⟩ := by
    simp [parseSnip, hid, hv, hu, hz, hty, hvi, hvb, hssh, hinv]
  have hsn : sn = ⟨id, ⟨v, u⟩, ty, vis, ssh, extractUrl (stripAnsi r), o⟩ :=
    (Except.ok.inj (hps.symm.trans h)).symm
  subst hsn
  have hvb2 : vis = "public" ∨ vis = "private" := by
    simpa using hvb
  have hiff : (extractUrl (stripAnsi r)).isSome = true ↔ vis = "public" := by
    rcases Bool.or_eq_true_iff.mp hinv with h3 | h3
    · obtain ⟨h4, h5⟩ := Bool.and_eq_true_iff.mp h3
      simp only [beq_iff_eq] at h5
      simp [h4, h5]
    · obtain ⟨h4, h5⟩ := Bool.and_eq_true_iff.mp h3
      simp only [beq_iff_eq] at h5
      constructor
      · intro h6
        rw [Option.isNone_iff_eq_none] at h4
        simp [h4] at h6
      · intro h6
        rw [h5] at h6
        simp at h6
  refine ⟨?_, ?_, ?_, ?_, ?_, ?_, ?_⟩
  · simp [hid]
  · simp [hty]
  · simp [hvi]
  · simpa using hvb2
  · simp [hssh]
  · rfl
  · simpa using hiff

end Snips

/-! ### Claim C1 -/

/-- C1: upload enforces `(url ≠ null) ⇔ (visibility = public)`: no Snip
it returns violates the invariant, a sanitized transcript whose prior
fields validate but which reports visibility `private` together with an
extracted URL fails with the message stating that visibility and that a
URL was found (`mismatchMsg "private" true`), and visibility `public`
with no URL fails with the message stating that visibility and that no
URL was found (`mismatchMsg "public" false`). -/
theorem upload_url_visibility_invariant (r : String) (o : ClientOptions) :
    (∀ sn, parseSnip r o = Except.ok sn →
      (sn.url ≠ none ↔ sn.visibility = "public")) ∧
    (otherFieldsOk (stripAnsi r) = true →
      extractVisibility (stripAnsi r) = some "private" →
      (extractUrl (stripAnsi r)).isSome = true →
        parseSnip r o = Except.error (mismatchMsg "private" true)) ∧
    (otherFieldsOk (stripAnsi r) = true →
      extractVisibility (stripAnsi r) = some "public" →
      extractUrl (stripAnsi r) = none →
        parseSnip r o = Except.error (mismatchMsg "public" false)) := by
  refine ⟨?_, ?_, ?_⟩
  · intro sn h
    obtain ⟨_, _, _, _, _, _, hiff⟩ := parseSnip_ok_inversion r o sn h
    rw [Option.ne_none_iff_isSome]
    exact hiff
  · intro hof hvi hurl
    simp only [otherFieldsOk, Bool.and_eq_true] at hof
    obtain ⟨⟨⟨hids, hsz⟩, htys⟩, hsshs⟩ := hof
    obtain ⟨id, hid⟩ := Option.isSome_iff_exists.mp hids
    obtain ⟨ty, hty⟩ := Option.isSome_iff_exists.mp htys
    obtain ⟨ssh, hssh⟩ := Option.isSome_iff_exists.mp hsshs
    obtain ⟨u, hu⟩ := Option.isSome_iff_exists.mp hurl
    have hbad : (((extractUrl (stripAnsi r)).isSome && ("private" == "public")) ||
        ((extractUrl (stripAnsi r)).isNone && ("private" == "private"))) = false := by
      simp [hu]
    have := parseSnip_err_mismatch r o id ty "private" ssh hid hsz hty hvi
      (by decide) hssh hbad
    simpa [hu] using this
  · intro hof hvi hurl
    simp only [otherFieldsOk, Bool.and_eq_true] at hof
    obtain ⟨⟨⟨hids, hsz⟩, htys⟩, hsshs⟩ := hof
    obtain ⟨id, hid⟩ := Option.isSome_iff_exists.mp hids
    obtain ⟨ty, hty⟩ := Option.isSome_iff_exists.mp htys
    obtain ⟨ssh, hssh⟩ := Option.isSome_iff_exists.mp hsshs
    have hbad : (((extractUrl (stripAnsi r)).isSome && ("public" == "public")) ||
        ((extractUrl (stripAnsi r)).isNone && ("public" == "private"))) = false := by
      simp [hurl]
    have := parseSnip_err_mismatch r o id ty "public" ssh hid hsz hty hvi
      (by decide) hssh hbad
    simpa [hurl] using this

/-- Witness for C1: a transcript with all prior fields present,
visibility `private`, and a URL, is rejected with the stated message. -/
theorem upload_url_visibility_invariant_witness :
    parseSnip
      "id: abcdefghij\nsize: 63 B\ntype: plaintext\nvisibility: private\nssh foo\nhttps://snips.sh/f/abcdefghij"
      ⟨"snips.sh", "ubuntu", none⟩ =
      Except.error (mismatchMsg "private" true) :=
  (upload_url_visibility_invariant _ _).2.1 (by decide) (by decide) (by decide)

/-! ### Claim C3 -/

/-- C3: upload validates, in sequence, that id, size (value and unit),
type and visibility (exactly `public` or `private`) are present in the
sanitized transcript, failing on the first missing or invalid field
with the error message identifying that field. -/
theorem upload_validation_sequence (r : String) (o : ClientOptions) :
    ((extractId (stripAnsi r)).isSome = false →
      parseSnip r o = Except.error "Failed to extract ID from response") ∧
    ((extractId (stripAnsi r)).isSome = true → sizeOk (stripAnsi r) = false →
      parseSnip r o = Except.error "Failed to extract size from response") ∧
    ((extractId (stripAnsi r)).isSome = true → sizeOk (stripAnsi r) = true →
      (extractType (stripAnsi r)).isSome = false →
      parseSnip r o = Except.error "Failed to extract type from response") ∧
    ((extractId (stripAnsi r)).isSome = true → sizeOk (stripAnsi r) = true →
      (extractType (stripAnsi r)).isSome = true →
      visibilityOk (stripAnsi r) = false →
      parseSnip r o = Except.error "Failed to extract visibility from response") := by
  refine ⟨?_, ?_, ?_, ?_⟩
  · intro h1
    rcases hid : extractId (stripAnsi r) with _ | id
    · exact parseSnip_err_at_id r o hid
    · rw [hid] at h1; simp at h1
  · intro h1 h2
    obtain ⟨id, hid⟩ := Option.isSome_iff_exists.mp h1
    exact parseSnip_err_at_size r o id hid h2
  · intro h1 h2 h3
    obtain ⟨id, hid⟩ := Option.isSome_iff_exists.mp h1
    rcases hty : extractType (stripAnsi r) with _ | ty
    · exact parseSnip_err_at_type r o id hid h2 hty
    · rw [hty] at h3; simp at h3
  · intro h1 h2 h3 h4
    obtain ⟨id, hid⟩ := Option.isSome_iff_exists.mp h1
    obtain ⟨ty, hty⟩ := Option.isSome_iff_exists.mp h3
    exact parseSnip_err_at_visibility r o id ty hid h2 hty h4

/-- Witness for C3: a transcript with id, size and type present but a
visibility token that is not lowercase `public`/`private` fails with the
visibility message. -/
theorem upload_validation_sequence_witness :
    parseSnip "id: abcdefghij\nsize: 63 B\ntype: plaintext\nvisibility: Public"
      ⟨"snips.sh", "ubuntu", none⟩ =
      Except.error "Failed to extract visibility from response" :=
  (upload_validation_sequence _ _).2.2.2 (by decide) (by decide) (by decide)
    (by decide)

/-! ### Claim C9 -/

/-- C9: upload additionally requires the remote-shell-command field:
when the four spec-listed validations pass but no `ssh ` line is present
(extractSsh returns none), upload fails with the error naming the SSH
field; and every Snip upload returns carries the extracted ssh string
(non-null by construction). -/
theorem upload_requires_ssh_field (r : String) (o : ClientOptions) :
    (priorFourOk (stripAnsi r) = true → extractSsh (stripAnsi r) = none →
      parseSnip r o = Except.error "Failed to extract SSH host from response") ∧
    (∀ sn, parseSnip r o = Except.ok sn →
      extractSsh (stripAnsi r) = some sn.ssh) := by
  constructor
  · intro hof hssh
    simp only [priorFourOk, Bool.and_eq_true] at hof
    obtain ⟨⟨⟨hids, hsz⟩, htys⟩, hvisok⟩ := hof
    obtain ⟨id, hid⟩ := Option.isSome_iff_exists.mp hids
    obtain ⟨ty, hty⟩ := Option.isSome_iff_exists.mp htys
    have hvis : extractVisibility (stripAnsi r) = some "public" ∨
        extractVisibility (stripAnsi r) = some "private" := by
      simpa [visibilityOk] using hvisok
    rcases hvis with hvi | hvi
    · exact parseSnip_err_at_ssh r o id ty "public" hid hsz hty hvi (by decide) hssh
    · exact parseSnip_err_at_ssh r o id ty "private" hid hsz hty hvi (by decide) hssh
  · intro sn h
    exact (parseSnip_ok_inversion r o sn h).2.2.2.2.1

/-- Witness for C9: a transcript with the four spec-required fields but
no ssh line fails with the SSH message. -/
theorem upload_requires_ssh_field_witness :
    parseSnip "id: abcdefghij\nsize: 63 B\ntype: plaintext\nvisibility: private"
      ⟨"snips.sh", "ubuntu", none⟩ =
      Except.error "Failed to extract SSH host from response" :=
  (upload_requires_ssh_field _ _).1 (by decide) (by decide)

/-! ### Claim C10 -/

/-- C10: a transcript whose size line reports the numeric value 0 makes
upload fail with the size validation error even though extractSize
returns both a value (0) and a unit: the `value && unit` presence check
tests numeric truthiness of the value, and 0 is falsy. -/
theorem upload_size_zero_rejected (r : String) (o : ClientOptions)
    (hid : (extractId (stripAnsi r)).isSome = true)
    (h0 : (extractSize (stripAnsi r)).value = some 0) :
    parseSnip r o = Except.error "Failed to extract size from response" ∧
      (extractSize (stripAnsi r)).unit.isSome = true := by
  obtain ⟨id, hid2⟩ := Option.isSome_iff_exists.mp hid
  have hszf : sizeOk (stripAnsi r) = false := by
    simp [sizeOk, h0]
  refine ⟨parseSnip_err_at_size r o id hid2 hszf, ?_⟩
  rw [← extractSize_value_unit_isSome]
  simp [h0]

/-- Witness for C10 on the transcript `size: 0 B`. -/
theorem upload_size_zero_rejected_witness :
    parseSnip "id: abcdefghij\nsize: 0 B" ⟨"snips.sh", "ubuntu", none⟩ =
        Except.error "Failed to extract size from response" ∧
      (extractSize (stripAnsi "id: abcdefghij\nsize: 0 B")).unit.isSome = true :=
  upload_size_zero_rejected "id: abcdefghij\nsize: 0 B"
    ⟨"snips.sh", "ubuntu", none⟩ (by decide) (by decide)

namespace Snips

/-! ### First-occurrence characterization of the scanning matchers -/

theorem scanFirst_some_iff {α : Type} (f : List Char → Option α) :
    ∀ (l : List Char) (a : α),
      scanFirst f l = some a ↔
        ∃ i, i < l.length ∧ f (l.drop i) = some a ∧
          ∀ j, j < i → f (l.drop j) = none := by
  intro l
  induction l with
  | nil => intro a; simp [scanFirst]
  | cons c rest ih =>
    intro a
    cases hf : f (c :: rest) with
    | some b =>
      simp only [scanFirst, hf]
      constructor
      · intro hba
        refine ⟨0, by simp, ?_, by omega⟩
        simpa [hf] using hba
      · rintro ⟨i, hi, hfi, hmin⟩
        cases i with
        | zero => simpa [hf] using hfi
        | succ n =>
          have := hmin 0 (Nat.succ_pos n)
          simp [hf] at this
    | none =>
      simp only [scanFirst, hf]
      rw [ih a]
      constructor
      · rintro ⟨i, hi, hfi, hmin⟩
        refine ⟨i + 1, by simpa using Nat.succ_lt_succ hi, by simpa using hfi, ?_⟩
        intro j hj
        cases j with
        | zero => simpa using hf
        | succ m =>
          have := hmin m (Nat.lt_of_succ_lt_succ hj)
          simpa using this
      · rintro ⟨i, hi, hfi, hmin⟩
        cases i with
        | zero =>
          rw [List.drop_zero, hf] at hfi
          exact absurd hfi (by simp)
        | succ n =>
          refine ⟨n, Nat.lt_of_succ_lt_succ (by simpa using hi),
            by simpa using hfi, ?_⟩
          intro j hj
          have := hmin (j + 1) (Nat.succ_lt_succ hj)
          simpa using this

theorem scanFirst_none_iff {α : Type} (f : List Char → Option α) :
    ∀ l : List Char,
      scanFirst f l = none ↔ ∀ i, i < l.length → f (l.drop i) = none := by
  intro l
  induction l with
  | nil => simp [scanFirst]
  | cons c rest ih =>
    cases hf : f (c :: rest) with
    | some b =>
      simp only [scanFirst, hf]
      constructor
      · intro h; exact absurd h (by simp)
      · intro h
        have := h 0 (by simp)
        simp [hf] at this
    | none =>
      simp only [scanFirst, hf]
      rw [ih]
      constructor
      · intro h i hi
        cases i with
        | zero => simpa using hf
        | succ n => simpa using h n (by simpa using Nat.lt_of_succ_lt_succ hi)
      · intro h i hi
        have := h (i + 1) (by simpa using Nat.succ_lt_succ hi)
        simpa using this

/-! ### Characterization of the id matcher (C4) -/

theorem idMatchAt_spec (l : List Char) (t : String) :
    idMatchAt l = some t → specIdAt l t := by
  intro h
  unfold idMatchAt at h
  split at h
  case h_1 rest =>
    split at h
    case isTrue hc =>
      obtain ⟨hlen, hall⟩ := Bool.and_eq_true_iff.mp hc
      have ht : t = ⟨rest.take 10⟩ := (Option.some.inj h).symm
      subst ht
      refine ⟨by simpa using hlen, ?_, rest.drop 10, ?_⟩
      · intro d hd
        exact List.all_eq_true.mp hall d (by simpa using hd)
      · simp [List.take_append_drop]
    case isFalse hc => exact absurd h (by simp)
  case h_2 => exact absurd h (by simp)

theorem specIdAt_matchAt (l : List Char) (t : String) :
    specIdAt l t → idMatchAt l = some t := by
  rintro ⟨hlen, hall, rest, rfl⟩
  have hl : (['i', 'd', ':', ' '] : List Char) ++ t.data ++ rest =
      'i' :: 'd' :: ':' :: ' ' :: (t.data ++ rest) := by simp
  have htake : (t.data ++ rest).take 10 = t.data := by
    rw [← hlen]
    exact List.take_left t.data rest
  have hcond : (t.data.length == 10 && t.data.all isIdChar) = true := by
    refine Bool.and_eq_true_iff.mpr ⟨by simpa using hlen, ?_⟩
    exact List.all_eq_true.mpr fun d hd => hall d (by simpa using hd)
  have harm : idMatchAt ('i' :: 'd' :: ':' :: ' ' :: (t.data ++ rest)) =
      some ⟨t.data⟩ := by
    simp [idMatchAt, htake, hcond]
    exact ⟨hlen, hall⟩
  rw [hl, harm]

theorem idMatchAt_none_iff (l : List Char) :
    idMatchAt l = none ↔ ∀ t, ¬ specIdAt l t := by
  constructor
  · intro hn t hsp
    have := specIdAt_matchAt l t hsp
    rw [hn] at this
    exact absurd this (by simp)
  · intro hall
    cases hm : idMatchAt l with
    | none => rfl
    | some b => exact absurd (idMatchAt_spec l b hm) (hall b)

end Snips

/-! ### Claim C4 -/

/-- C4: extractId returns (as `some`) exactly the first run of 10
characters from `[A-Za-z0-9_-]` following a literal `id:` label (with
its separating space, per the transcript grammar `id: <token>`),
scanning positions left to right, and returns none exactly when no
position carries the label followed by such a run. -/
theorem extractId_first_run_after_label (s : String) :
    (∀ t, extractId s = some t ↔ firstIdMatch s t) ∧
    (extractId s = none ↔
      ∀ i, i < s.data.length → ∀ t, ¬ specIdAt (s.data.drop i) t) := by
  constructor
  · intro t
    rw [extractId, Snips.scanFirst_some_iff]
    unfold firstIdMatch
    constructor
    · rintro ⟨i, hi, hfi, hmin⟩
      exact ⟨i, hi, Snips.idMatchAt_spec _ t hfi,
        fun j hj u => (Snips.idMatchAt_none_iff _).mp (hmin j hj) u⟩
    · rintro ⟨i, hi, hsp, hmin⟩
      exact ⟨i, hi, Snips.specIdAt_matchAt _ t hsp,
        fun j hj => (Snips.idMatchAt_none_iff _).mpr (hmin j hj)⟩
  · rw [extractId, Snips.scanFirst_none_iff]
    constructor
    · intro h i hi t
      exact (Snips.idMatchAt_none_iff _).mp (h i hi) t
    · intro h i hi
      exact (Snips.idMatchAt_none_iff _).mpr (h i hi)

namespace Snips

/-! ### Characterization of the url matcher (C5) -/

theorem dropWhile_cases (p : Char → Bool) :
    ∀ l : List Char,
      l.dropWhile p = [] ∨ ∃ c r, l.dropWhile p = c :: r ∧ p c = false := by
  intro l
  induction l with
  | nil => left; rfl
  | cons c rest ih =>
    cases hc : p c
    · right
      exact ⟨c, rest, by simp [List.dropWhile_cons, hc], hc⟩
    · simpa [List.dropWhile_cons, hc] using ih

theorem takeWhile_append_of (p : Char → Bool) :
    ∀ body rest : List Char, (∀ c ∈ body, p c = true) →
      (rest = [] ∨ ∃ c r2, rest = c :: r2 ∧ p c = false) →
      (body ++ rest).takeWhile p = body := by
  intro body
  induction body with
  | nil =>
    intro rest _ hr
    rcases hr with rfl | ⟨c, r2, rfl, hc⟩
    · rfl
    · simp [List.takeWhile_cons, hc]
  | cons b bs ih =>
    intro rest hb hr
    have hpb : p b = true := hb b (by simp)
    simp only [List.cons_append, List.takeWhile_cons, hpb, if_true]
    rw [ih rest (fun c hc => hb c (by simp [hc])) hr]

theorem urlMatchAt_spec (l : List Char) (u : String) :
    urlMatchAt l = some u → specUrlAt l u := by
  intro h
  unfold urlMatchAt at h
  split at h
  case h_1 rest =>
    split at h
    case isTrue hc => exact absurd h (by simp)
    case isFalse hc =>
      have hu : u = ⟨['h', 't', 't', 'p', 's', ':', '/', '/'] ++
          rest.takeWhile (fun c => !jsSpace c)⟩ := (Option.some.inj h).symm
      subst hu
      refine ⟨['h', 't', 't', 'p', 's', ':', '/', '/'],
        rest.takeWhile (fun c => !jsSpace c),
        rest.dropWhile (fun c => !jsSpace c), Or.inr rfl, ?_, ?_, rfl, ?_, ?_⟩
      · intro hnil
        rw [hnil] at hc
        exact hc rfl
      · intro c hcm
        simpa using List.mem_takeWhile_imp hcm
      · simp [List.takeWhile_append_dropWhile]
      · rcases dropWhile_cases (fun c => !jsSpace c) rest with hd | ⟨c, r2, hd, hcf⟩
        · left; exact hd
        · right; exact ⟨c, r2, hd, by simpa using hcf⟩
  case h_2 rest =>
    split at h
    case isTrue hc => exact absurd h (by simp)
    case isFalse hc =>
      have hu : u = ⟨['h', 't', 't', 'p', ':', '/', '/'] ++
          rest.takeWhile (fun c => !jsSpace c)⟩ := (Option.some.inj h).symm
      subst hu
      refine ⟨['h', 't', 't', 'p', ':', '/', '/'],
        rest.takeWhile (fun c => !jsSpace c),
        rest.dropWhile (fun c => !jsSpace c), Or.inl rfl, ?_, ?_, rfl, ?_, ?_⟩
      · intro hnil
        rw [hnil] at hc
        exact hc rfl
      · intro c hcm
        simpa using List.mem_takeWhile_imp hcm
      · simp [List.takeWhile_append_dropWhile]
      · rcases dropWhile_cases (fun c => !jsSpace c) rest with hd | ⟨c, r2, hd, hcf⟩
        · left; exact hd
        · right; exact ⟨c, r2, hd, by simpa using hcf⟩
  case h_3 => exact absurd h (by simp)

theorem specUrlAt_matchAt (l : List Char) (u : String) :
    specUrlAt l u → urlMatchAt l = some u := by
  rintro ⟨scheme, body, rest, hsch, hne, hbody, hu, rfl, hrest⟩
  have hb2 : ∀ c ∈ body, (fun c => !jsSpace c) c = true := by
    intro c hcm
    simp [hbody c hcm]
  have hr2 : rest = [] ∨ ∃ c r2, rest = c :: r2 ∧ (fun c => !jsSpace c) c = false := by
    rcases hrest with rfl | ⟨c, r2, rfl, hc⟩
    · left; rfl
    · right; exact ⟨c, r2, rfl, by simp [hc]⟩
  have htw : (body ++ rest).takeWhile (fun c => !jsSpace c) = body :=
    takeWhile_append_of (fun c => !jsSpace c) body rest hb2 hr2
  have hbe : ((body ++ rest).takeWhile (fun c => !jsSpace c)).isEmpty = false := by
    rw [htw]
    cases body with
    | nil => exact absurd rfl hne
    | cons x xs => rfl
  rcases hsch with rfl | rfl
  · have hl : (['h', 't', 't', 'p', ':', '/', '/'] : List Char) ++ body ++ rest =
        'h' :: 't' :: 't' :: 'p' :: ':' :: '/' :: '/' :: (body ++ rest) := by
      simp
    rw [hl]
    have harm : urlMatchAt
        ('h' :: 't' :: 't' :: 'p' :: ':' :: '/' :: '/' :: (body ++ rest)) =
        if ((body ++ rest).takeWhile (fun c => !jsSpace c)).isEmpty then none
        else some ⟨['h', 't', 't', 'p', ':', '/', '/'] ++
          (body ++ rest).takeWhile (fun c => !jsSpace c)⟩ := rfl
    rw [harm, hbe, htw]
    simp only [if_false, Bool.false_eq_true]
    rw [← hu]
  · have hl : (['h', 't', 't', 'p', 's', ':', '/', '/'] : List Char) ++ body ++ rest =
        'h' :: 't' :: 't' :: 'p' :: 's' :: ':' :: '/' :: '/' :: (body ++ rest) := by
      simp
    rw [hl]
    have harm : urlMatchAt
        ('h' :: 't' :: 't' :: 'p' :: 's' :: ':' :: '/' :: '/' :: (body ++ rest)) =
        if ((body ++ rest).takeWhile (fun c => !jsSpace c)).isEmpty then none
        else some ⟨['h', 't', 't', 'p', 's', ':', '/', '/'] ++
          (body ++ rest).takeWhile (fun c => !jsSpace c)⟩ := rfl
    rw [harm, hbe, htw]
    simp only [if_false, Bool.false_eq_true]
    rw [← hu]

theorem urlMatchAt_none_iff (l : List Char) :
    urlMatchAt l = none ↔ ∀ u, ¬ specUrlAt l u := by
  constructor
  · intro hn u hsp
    have := specUrlAt_matchAt l u hsp
    rw [hn] at this
    exact absurd this (by simp)
  · intro hall
    cases hm : urlMatchAt l with
    | none => rfl
    | some b => exact absurd (urlMatchAt_spec l b hm) (hall b)

end Snips

/-! ### Claim C5 -/

/-- C5: extractUrl returns (as `some`) exactly the first substring
matching an `http(s)://` scheme followed by a nonempty maximal run of
non-whitespace characters, scanning positions left to right and
returning only the first such occurrence even when several are present,
and returns none exactly when no position carries a scheme-prefixed
match. -/
theorem extractUrl_first_scheme_match (s : String) :
    (∀ u, extractUrl s = some u ↔ firstUrlMatch s u) ∧
    (extractUrl s = none ↔
      ∀ i, i < s.data.length → ∀ u, ¬ specUrlAt (s.data.drop i) u) := by
  constructor
  · intro u
    rw [extractUrl, Snips.scanFirst_some_iff]
    unfold firstUrlMatch
    constructor
    · rintro ⟨i, hi, hfi, hmin⟩
      exact ⟨i, hi, Snips.urlMatchAt_spec _ u hfi,
        fun j hj v => (Snips.urlMatchAt_none_iff _).mp (hmin j hj) v⟩
    · rintro ⟨i, hi, hsp, hmin⟩
      exact ⟨i, hi, Snips.specUrlAt_matchAt _ u hsp,
        fun j hj => (Snips.urlMatchAt_none_iff _).mpr (hmin j hj)⟩
  · rw [extractUrl, Snips.scanFirst_none_iff]
    constructor
    · intro h i hi u
      exact (Snips.urlMatchAt_none_iff _).mp (h i hi) u
    · intro h i hi
      exact (Snips.urlMatchAt_none_iff _).mpr (h i hi)
